import Mathlib

/-!
Verification of the MaixPy_Vision_Tracking gimbal firmware
(`gimbal_c_code/mspm0_standalone`): the servo angle/PWM mapper and safety
clamp, the PID controller (`drivers/SERVO/servo.c`), and the K230 UART
frame synchronizer, init handshake and command/response exchange
(`drivers/K230_UART`).

C `float` arithmetic is modelled over ℚ (exact arithmetic); clamping and
affine-map properties depend only on ordering and field operations.
C `uint8_t`/`uint16_t` values are modelled as ℕ/ℤ; every modelled
computation stays inside the machine range on the inputs considered, and
overflow points (the `pt %= 9` wrap, the `time++` retry counter) are noted
at their definitions.
-/

/-! Section: servo angle/PWM mapper (servo.c) -/

/-- Constant SERVO_PWM_MIN = 24 (servo.h). -/
def SERVO_PWM_MIN : ℚ := 24

/-- Constant SERVO_PWM_MAX = 96 (servo.h). -/
def SERVO_PWM_MAX : ℚ := 96

/-- Constant SERVO1_MIN_ANGLE = 9.0f (servo.h). -/
def SERVO1_MIN_ANGLE : ℚ := 9

/-- Constant SERVO1_MAX_ANGLE = 171.0f (servo.h). -/
def SERVO1_MAX_ANGLE : ℚ := 171

/-- Constant SERVO2_MIN_ANGLE = 13.5f (servo.h). -/
def SERVO2_MIN_ANGLE : ℚ := 27 / 2

/-- Constant SERVO2_MAX_ANGLE = 256.5f (servo.h). -/
def SERVO2_MAX_ANGLE : ℚ := 513 / 2

/-- Function `Clamp_Angle(float angle, float min_angle, float max_angle)`
(servo.c lines 14-19, static float): two guarded early returns, else the angle itself. -/
def Clamp_Angle (angle min_angle max_angle : ℚ) : ℚ :=
  if angle < min_angle then min_angle
  else if angle > max_angle then max_angle
  else angle

/-- Function `Angle_To_PWM(float angle, float min_angle, float max_angle)`
(servo.c lines 22-32, static uint16_t): clamp the angle, apply the affine map onto
[SERVO_PWM_MIN, SERVO_PWM_MAX], then `(uint16_t)(pwm + 0.5f)`.
The C cast truncates toward zero; whenever `min_angle < max_angle` the
clamped affine value is at least SERVO_PWM_MIN = 24 > 0, so the truncation
equals the integer floor used here. -/
def Angle_To_PWM (angle min_angle max_angle : ℚ) : ℤ :=
  let a := Clamp_Angle angle min_angle max_angle
  let pwm := SERVO_PWM_MIN + (a - min_angle) * (SERVO_PWM_MAX - SERVO_PWM_MIN) / (max_angle - min_angle)
  ⌊pwm + 1 / 2⌋

/-- The mutable globals of servo.c: `uint16_t Servo_Target1, Servo_Target2`
(duty targets, modelled as ℤ; all stored values lie in [24, 96] ⊂ uint16_t),
plus an observation trace of the `DL_Timer_setCaptureCompareValue(TIMA1, duty, ccIndex)`
calls, recorded as (duty, ccIndex) pairs. -/
structure ServoState where
  Servo_Target1 : ℤ
  Servo_Target2 : ℤ
  timerWrites : List (ℤ × ℕ)

/-- Function `Servo_Limitation(void)` (servo.c lines 34-43): force both duty
targets into [Amplitude_L, Amplitude_H] = [24, 96], low bound first, exactly
as the four `if` statements do. -/
def Servo_Limitation (s : ServoState) : ServoState :=
  let a1 := if s.Servo_Target1 < 24 then 24 else s.Servo_Target1
  let a2 := if a1 > 96 then 96 else a1
  let b1 := if s.Servo_Target2 < 24 then 24 else s.Servo_Target2
  let b2 := if b1 > 96 then 96 else b1
  { s with Servo_Target1 := a2, Servo_Target2 := b2 }

/-- Function `Set_Servo_Angle(uint8_t servo_num, float angle)` (servo.c lines
47-68): for servo 1 (resp. 2) convert the angle with the axis calibration,
store the duty into `Servo_Target1` (resp. `Servo_Target2`) and write it to
timer compare channel 0 (resp. 1); finally call `Servo_Limitation`. -/
def Set_Servo_Angle (s : ServoState) (servo_num : ℕ) (angle : ℚ) : ServoState :=
  let s1 :=
    if servo_num = 1 then
      let pwm := Angle_To_PWM angle SERVO1_MIN_ANGLE SERVO1_MAX_ANGLE
      { s with Servo_Target1 := pwm, timerWrites := s.timerWrites ++ [(pwm, 0)] }
    else if servo_num = 2 then
      let pwm := Angle_To_PWM angle SERVO2_MIN_ANGLE SERVO2_MAX_ANGLE
      { s with Servo_Target2 := pwm, timerWrites := s.timerWrites ++ [(pwm, 1)] }
    else s
  Servo_Limitation s1

/-! Section: PID controller (servo.c) -/

/-- Struct `PID_Controller` (servo.h, typedef struct), fields in declaration
order. -/
structure PID_Controller where
  Kp : ℚ
  Ki : ℚ
  Kd : ℚ
  error : ℚ
  error_last : ℚ
  integral : ℚ
  output : ℚ
  output_max : ℚ
  output_min : ℚ

/-- Function `PID_Calculate(PID_Controller* pid, float target, float current)`
(servo.c lines 85-109), statement by statement; the result is the updated
struct together with the returned value. -/
def PID_Calculate (pid : PID_Controller) (target current : ℚ) : PID_Controller × ℚ :=
  let error := target - current
  let integral0 := pid.integral + error
  let integral1 := if integral0 > pid.output_max then pid.output_max else integral0
  let integral2 := if integral1 < pid.output_min then pid.output_min else integral1
  let derivative := error - pid.error_last
  let output0 := pid.Kp * error + pid.Ki * integral2 + pid.Kd * derivative
  let output1 := if output0 > pid.output_max then pid.output_max else output0
  let output2 := if output1 < pid.output_min then pid.output_min else output1
  ({ pid with error := error, error_last := error, integral := integral2, output := output2 },
   output2)

/-- Iterated PID ticks with a fixed (target, current) pair. -/
def PID_iter (pid : PID_Controller) (target current : ℚ) : ℕ → PID_Controller
  | 0 => pid
  | n + 1 => (PID_Calculate (PID_iter pid target current n) target current).1

/-- Mathematical clamp used by the specification: clamp x into [lo, hi]. -/
def clampQ (lo hi x : ℚ) : ℚ := max lo (min x hi)

/-- Concrete PID instance used to witness the PID theorems. -/
def pidW : PID_Controller := ⟨1, 1, 1, 0, 0, 0, 0, 10, -10⟩

/-! Section: K230 UART frame synchronizer (K230_UART.c) -/

/-- The mutable globals driven by the receive interrupt
(K230_UART.c lines 3-22 and K230_UART.h): the 9-byte accumulator
`rx_order` (addressed by plain index; the reachable write index stays
below 9, proved below), `last_data`, the write cursor `pt`, and the two
published coordinates `target_x`, `target_y`.  `commitCount` instruments
the model: it counts executions of the coordinate-commit branch and is
touched nowhere else. -/
structure RxState where
  rxOrder : ℕ → ℕ
  lastData : ℕ
  pt : ℕ
  target_x : ℕ
  target_y : ℕ
  commitCount : ℕ

/-- Initial values of the globals: a zeroed buffer, `last_data = 0`,
`pt = 0`, zero-initialized `target_x`/`target_y`. -/
def initState : RxState :=
  { rxOrder := fun _ => 0, lastData := 0, pt := 0, target_x := 0, target_y := 0,
    commitCount := 0 }

/-- Function `UART_0_rx_DataFrame(void)` (K230_UART.c lines 45-72) processing
one received byte `b`:
* two consecutive 0xAA: resynchronize, `pt = 2`, stamp 0xAA into slots 0, 1;
* two consecutive 0xFF: if `rx_order[2]+rx_order[3]+rx_order[4]+rx_order[5]`
  equals `rx_order[6]` (the `uint8_t` summands are promoted to `int`, so
  this is the exact sum, with no reduction mod 256), publish
  `target_x = ((uint16_t)rx_order[2] << 8) | rx_order[3]` and likewise
  `target_y`; for byte-valued low parts the bitwise-or of the disjoint
  halves equals `256 * high + low`, the form used here;
* otherwise: store `b` at `rx_order[pt]` and advance `pt` with the
  anti-overflow wrap `pt %= 9`;
* in every case `last_data = b` afterwards. -/
def UART_0_rx_DataFrame (s : RxState) (b : ℕ) : RxState :=
  let s1 :=
    if s.lastData = b ∧ b = 0xAA then
      { s with pt := 2,
               rxOrder := Function.update (Function.update s.rxOrder 0 0xAA) 1 0xAA }
    else if s.lastData = b ∧ b = 0xFF then
      if s.rxOrder 2 + s.rxOrder 3 + s.rxOrder 4 + s.rxOrder 5 = s.rxOrder 6 then
        { s with target_x := 256 * s.rxOrder 2 + s.rxOrder 3,
                 target_y := 256 * s.rxOrder 4 + s.rxOrder 5,
                 commitCount := s.commitCount + 1 }
      else s
    else
      { s with rxOrder := Function.update s.rxOrder s.pt b, pt := (s.pt + 1) % 9 }
  { s1 with lastData := b }

/-- Feed a byte sequence to the receive interrupt handler, one byte per
interrupt, in order. -/
def processList (s : RxState) (bs : List ℕ) : RxState :=
  bs.foldl UART_0_rx_DataFrame s

/-! Section: K230 initialization handshake (K230_UART.c) -/

/-- Constant TIME_OUT = 0xFF (K230_UART.h line 8). -/
def TIME_OUT : ℕ := 0xFF

/-- The `while (data != 0x1B)` retry loop of `K230_Init` (K230_UART.c lines
35-41), with the incoming bytes modelled as a stream indexed by read
position.  The C loop keeps a `uint8_t time` counter starting at 0 and
returns 0 once `time++ >= TIME_OUT` observes 255, so byte `i` is examined
exactly when `i < 255`; `fuel` here is `TIME_OUT - time`, the number of
reads still allowed. -/
def K230_Init_loop (stream : ℕ → ℕ) (i : ℕ) : ℕ → ℕ
  | 0 => 0
  | fuel + 1 => if stream i = 0x1B then 1 else K230_Init_loop stream (i + 1) fuel

/-- Function `K230_Init(void)` (K230_UART.c lines 24-43), observed through
its received-byte stream: transmit the self-check command (not modelled —
it does not affect the result), then run the acknowledgment retry loop;
returns 1 on success, 0 on timeout. -/
def K230_Init (stream : ℕ → ℕ) : ℕ :=
  K230_Init_loop stream 0 TIME_OUT

/-! Section: K230 command/response exchange (K230_UART.c) -/

/-- Constant STOP_CMD = 0x1C (K230_UART.h line 7). -/
def STOP_CMD : ℕ := 0x1C

/-- Constant END1 = 0x01 (K230_UART.h line 9). -/
def END1 : ℕ := 0x01

/-- Constant END2 = 0xFE (K230_UART.h line 10). -/
def END2 : ℕ := 0xFE

/-- Constant END3 = 0xFF (K230_UART.h line 11). -/
def END3 : ℕ := 0xFF

/-- The inner terminator-scanning loop of `K230_cmd` (K230_UART.c lines
88-94): `ll`/`l`/`temp` are `last_last_temp`/`last_temp`/`temp`, `acc` is
the contents of `data[0..i)`, and `s` is the remaining byte stream.  The
guard is checked before each store, so the bytes of the terminator that
entered as `temp` (END1 and END2) are stored into the buffer, while the
closing END3 is not.  An exhausted stream means the blocking read never
returns (`none`). -/
def segLoop (ll l temp : ℕ) (acc : List ℕ) (s : List ℕ) : Option (List ℕ × List ℕ) :=
  if temp = END3 ∧ l = END2 ∧ ll = END1 then some (acc, s)
  else
    match s with
    | [] => none
    | t :: rest => segLoop l temp t (acc ++ [temp]) rest
termination_by s.length

/-- One outer-loop body of `K230_cmd` up to the handler call (K230_UART.c
lines 84-94): discard one byte, read `temp`, then scan for the terminator
with `last_temp = last_last_temp = 0`.  Returns the buffer handed to the
handler together with the unread remainder of the stream. -/
def parseSegment (s : List ℕ) : Option (List ℕ × List ℕ) :=
  match s with
  | [] => none
  | _ :: s1 =>
    match s1 with
    | [] => none
    | t :: rest => segLoop 0 0 t [] rest

/-- The outer `while (loop_flag)` of `K230_cmd` (K230_UART.c lines 82-96):
read one segment, hand it to `func`, continue while the returned flag is
nonzero.  Each completed segment consumes at least two stream bytes, so the
length of the remaining stream bounds the number of iterations; `fuel` is
instantiated with that length in `K230_cmd` and the bound is proved
adequate in `cmdRun_fuel_congr` below.  `none` models an exchange that
blocks forever on an exhausted stream. -/
def cmdRun (h : List ℕ → ℕ) : ℕ → List ℕ → Option (List (List ℕ))
  | 0, _ => none
  | fuel + 1, s =>
    match parseSegment s with
    | none => none
    | some (buf, rest) =>
      if h buf = 0 then some [buf]
      else (cmdRun h fuel rest).map (fun segs => buf :: segs)

/-- Function `K230_cmd(uint8_t cmd, uint8_t (*func)(uint8_t*))` (K230_UART.c
lines 75-102), observed through its received-byte stream: transmit `cmd`,
run the segment/handler loop, and on exit transmit `STOP_CMD`.  The result
pairs the list of buffers handed to the handler with the bytes transmitted
on the UART by `K230_cmd` itself. -/
def K230_cmd (cmd : ℕ) (h : List ℕ → ℕ) (s : List ℕ) : Option (List (List ℕ) × List ℕ) :=
  (cmdRun h s.length s).map (fun segs => (segs, [cmd, STOP_CMD]))

/-- Byte stream used to witness the initialization-handshake theorem: the
acknowledgment 0x1B arrives as the fourth byte. -/
def ackStream : ℕ → ℕ := fun i => if i = 3 then 0x1B else 0

/-- Byte stream used to witness the timeout half of the handshake theorem:
the acknowledgment never arrives. -/
def silentStream : ℕ → ℕ := fun _ => 0

/-! Section: PID theorems -/

/-- The two successive guarded assignments used in servo.c to bound a value
(cap at the maximum, then raise to the minimum) compute the mathematical
clamp. -/
lemma twoIf_eq_clampQ (lo hi x : ℚ) :
    (if (if x > hi then hi else x) < lo then lo else if x > hi then hi else x) =
      clampQ lo hi x := by
  unfold clampQ
  rw [max_def, min_def]
  split_ifs <;> linarith

/-- Closed form of one `PID_Calculate` invocation. -/
lemma PID_Calculate_eq (pid : PID_Controller) (t c : ℚ) :
    PID_Calculate pid t c =
      ({ pid with
          error := t - c,
          error_last := t - c,
          integral := clampQ pid.output_min pid.output_max (pid.integral + (t - c)),
          output := clampQ pid.output_min pid.output_max
            (pid.Kp * (t - c) +
              pid.Ki * clampQ pid.output_min pid.output_max (pid.integral + (t - c)) +
              pid.Kd * ((t - c) - pid.error_last)) },
       clampQ pid.output_min pid.output_max
         (pid.Kp * (t - c) +
           pid.Ki * clampQ pid.output_min pid.output_max (pid.integral + (t - c)) +
           pid.Kd * ((t - c) - pid.error_last))) := by
  simp only [PID_Calculate, twoIf_eq_clampQ]

/-- The clamp lands in the interval when the bounds are ordered. -/
lemma clampQ_mem (lo hi x : ℚ) (h : lo ≤ hi) :
    lo ≤ clampQ lo hi x ∧ clampQ lo hi x ≤ hi :=
  ⟨le_max_left lo _, max_le h (min_le_right x hi)⟩

/-- C5: one invocation of PID_Calculate computes exactly
error = target - current, integral' = clamp(integral + error, output_min,
output_max), derivative = error - error_last, output = clamp(Kp*error +
Ki*integral' + Kd*derivative, output_min, output_max), stores error into
error_last, and returns output. -/
theorem pid_calculate_functional (pid : PID_Controller) (t c : ℚ) :
    PID_Calculate pid t c =
      ({ pid with
          error := t - c,
          error_last := t - c,
          integral := clampQ pid.output_min pid.output_max (pid.integral + (t - c)),
          output := clampQ pid.output_min pid.output_max
            (pid.Kp * (t - c) +
              pid.Ki * clampQ pid.output_min pid.output_max (pid.integral + (t - c)) +
              pid.Kd * ((t - c) - pid.error_last)) },
       clampQ pid.output_min pid.output_max
         (pid.Kp * (t - c) +
           pid.Ki * clampQ pid.output_min pid.output_max (pid.integral + (t - c)) +
           pid.Kd * ((t - c) - pid.error_last))) :=
  PID_Calculate_eq pid t c

/-- PID_Calculate leaves the gains and the output bounds untouched. -/
lemma PID_Calculate_bounds_fixed (pid : PID_Controller) (t c : ℚ) :
    (PID_Calculate pid t c).1.output_min = pid.output_min ∧
    (PID_Calculate pid t c).1.output_max = pid.output_max := by
  rw [PID_Calculate_eq]
  exact ⟨rfl, rfl⟩

/-- Closed form of the integral accumulator under iteration with a fixed
positive error: it follows `integral + n * error` capped at `output_max`. -/
lemma PID_iter_integral (pid : PID_Controller) (t c : ℚ)
    (hb : pid.output_min ≤ pid.output_max)
    (hi0 : pid.output_min ≤ pid.integral) (hi1 : pid.integral ≤ pid.output_max)
    (he : c < t) : ∀ n : ℕ,
    (PID_iter pid t c n).integral = min (pid.integral + n * (t - c)) pid.output_max ∧
    (PID_iter pid t c n).output_min = pid.output_min ∧
    (PID_iter pid t c n).output_max = pid.output_max := by
  have he' : 0 < t - c := by linarith
  intro n
  induction n with
  | zero =>
    refine ⟨?_, rfl, rfl⟩
    have : pid.integral + (0 : ℕ) * (t - c) = pid.integral := by push_cast; ring
    rw [PID_iter, this, min_eq_left hi1]
  | succ n ih =>
    obtain ⟨hI, hmn, hmx⟩ := ih
    have hstep : PID_iter pid t c (n + 1) = (PID_Calculate (PID_iter pid t c n) t c).1 := rfl
    have hne : (0 : ℚ) ≤ (n : ℚ) * (t - c) :=
      mul_nonneg (Nat.cast_nonneg n) (le_of_lt he')
    refine ⟨?_, ?_, ?_⟩
    · rw [hstep, PID_Calculate_eq]
      show clampQ (PID_iter pid t c n).output_min (PID_iter pid t c n).output_max
          ((PID_iter pid t c n).integral + (t - c)) = _
      rw [hI, hmn, hmx]
      unfold clampQ
      rcases le_or_lt (pid.integral + (n : ℚ) * (t - c)) pid.output_max with h | h
      · rw [min_eq_left h]
        have hcast : pid.integral + (n : ℚ) * (t - c) + (t - c)
            = pid.integral + ((n : ℕ) + 1 : ℕ) * (t - c) := by push_cast; ring
        rw [hcast]
        have hlo : pid.output_min ≤ min (pid.integral + (((n : ℕ) + 1 : ℕ) : ℚ) * (t - c)) pid.output_max := by
          have h1 : pid.output_min ≤ pid.integral + (((n : ℕ) + 1 : ℕ) : ℚ) * (t - c) := by
            have : (0 : ℚ) ≤ (((n : ℕ) + 1 : ℕ) : ℚ) * (t - c) :=
              mul_nonneg (Nat.cast_nonneg _) (le_of_lt he')
            linarith
          exact le_min h1 hb
        rw [max_eq_right hlo]
      · rw [min_eq_right (le_of_lt h)]
        have h1 : min (pid.output_max + (t - c)) pid.output_max = pid.output_max :=
          min_eq_right (by linarith)
        rw [h1, max_eq_right hb]
        have h2 : pid.output_max ≤ pid.integral + (((n : ℕ) + 1 : ℕ) : ℚ) * (t - c) := by
          push_cast
          nlinarith
        rw [min_eq_right h2]
    · rw [hstep, (PID_Calculate_bounds_fixed _ t c).1, hmn]
    · rw [hstep, (PID_Calculate_bounds_fixed _ t c).2, hmx]

/-- C3: for a PID state with ordered bounds whose integral and output lie
in [output_min, output_max], one PID_Calculate call keeps the integral and
the output (equal to the returned value) inside [output_min, output_max];
and with a fixed strictly positive error the iterated integral never
exceeds output_max and saturates at output_max after finitely many ticks. -/
theorem pid_invariant_antiwindup (pid : PID_Controller) (t c : ℚ)
    (hb : pid.output_min ≤ pid.output_max)
    (hi0 : pid.output_min ≤ pid.integral) (hi1 : pid.integral ≤ pid.output_max)
    (ho0 : pid.output_min ≤ pid.output) (ho1 : pid.output ≤ pid.output_max) :
    (pid.output_min ≤ (PID_Calculate pid t c).1.integral ∧
      (PID_Calculate pid t c).1.integral ≤ pid.output_max) ∧
    (pid.output_min ≤ (PID_Calculate pid t c).1.output ∧
      (PID_Calculate pid t c).1.output ≤ pid.output_max) ∧
    (PID_Calculate pid t c).2 = (PID_Calculate pid t c).1.output ∧
    (c < t →
      (∀ n : ℕ, (PID_iter pid t c n).integral ≤ pid.output_max) ∧
      ∃ N : ℕ, ∀ n : ℕ, N ≤ n → (PID_iter pid t c n).integral = pid.output_max) := by
  refine ⟨?_, ?_, ?_, ?_⟩
  · rw [PID_Calculate_eq]
    exact clampQ_mem _ _ _ hb
  · rw [PID_Calculate_eq]
    exact clampQ_mem _ _ _ hb
  · rw [PID_Calculate_eq]
  · intro hct
    have he' : (0 : ℚ) < t - c := by linarith
    refine ⟨?_, ?_⟩
    · intro n
      rw [(PID_iter_integral pid t c hb hi0 hi1 hct n).1]
      exact min_le_right _ _
    · refine ⟨⌈(pid.output_max - pid.integral) / (t - c)⌉₊, ?_⟩
      intro n hn
      rw [(PID_iter_integral pid t c hb hi0 hi1 hct n).1]
      apply min_eq_right
      have hq : (pid.output_max - pid.integral) / (t - c) ≤ (n : ℚ) := Nat.ceil_le.mp hn
      have h2 : pid.output_max - pid.integral ≤ (n : ℚ) * (t - c) := by
        have := (div_le_iff he').mp hq
        linarith
      linarith

/-- Witness for pid_invariant_antiwindup at the concrete controller pidW
with (target, current) = (1, 0). -/
theorem pid_invariant_antiwindup_witness :
    (pidW.output_min ≤ pidW.output_max ∧ pidW.output_min ≤ pidW.integral ∧
      pidW.integral ≤ pidW.output_max ∧ pidW.output_min ≤ pidW.output ∧
      pidW.output ≤ pidW.output_max) ∧
    ((pidW.output_min ≤ (PID_Calculate pidW 1 0).1.integral ∧
       (PID_Calculate pidW 1 0).1.integral ≤ pidW.output_max) ∧
     (pidW.output_min ≤ (PID_Calculate pidW 1 0).1.output ∧
       (PID_Calculate pidW 1 0).1.output ≤ pidW.output_max) ∧
     (PID_Calculate pidW 1 0).2 = (PID_Calculate pidW 1 0).1.output ∧
     ((0 : ℚ) < 1 →
       (∀ n : ℕ, (PID_iter pidW 1 0 n).integral ≤ pidW.output_max) ∧
       ∃ N : ℕ, ∀ n : ℕ, N ≤ n → (PID_iter pidW 1 0 n).integral = pidW.output_max)) :=
  ⟨⟨by norm_num [pidW], by norm_num [pidW], by norm_num [pidW], by norm_num [pidW],
    by norm_num [pidW]⟩,
   pid_invariant_antiwindup pidW 1 0 (by norm_num [pidW]) (by norm_num [pidW])
     (by norm_num [pidW]) (by norm_num [pidW]) (by norm_num [pidW])⟩

/-! Section: servo mapper and safety clamp theorems -/

/-- The clamped angle lies between the calibration bounds. -/
lemma Clamp_Angle_mem (a mn mx : ℚ) (h : mn ≤ mx) :
    mn ≤ Clamp_Angle a mn mx ∧ Clamp_Angle a mn mx ≤ mx := by
  unfold Clamp_Angle
  split_ifs <;> constructor <;> linarith

/-- Clamping twice changes nothing. -/
lemma Clamp_Angle_idem (a mn mx : ℚ) (h : mn ≤ mx) :
    Clamp_Angle (Clamp_Angle a mn mx) mn mx = Clamp_Angle a mn mx := by
  unfold Clamp_Angle
  split_ifs <;> linarith

/-- Angle_To_PWM depends on the angle only through its clamped value. -/
lemma Angle_To_PWM_congr (a b mn mx : ℚ)
    (h : Clamp_Angle a mn mx = Clamp_Angle b mn mx) :
    Angle_To_PWM a mn mx = Angle_To_PWM b mn mx := by
  unfold Angle_To_PWM
  rw [h]

/-- The duty produced by Angle_To_PWM always lies in [24, 96] when the
calibration is proper (min_angle < max_angle). -/
lemma Angle_To_PWM_mem (angle mn mx : ℚ) (h : mn < mx) :
    24 ≤ Angle_To_PWM angle mn mx ∧ Angle_To_PWM angle mn mx ≤ 96 := by
  obtain ⟨h1, h2⟩ := Clamp_Angle_mem angle mn mx (le_of_lt h)
  have hd : (0 : ℚ) < mx - mn := by linarith
  unfold Angle_To_PWM SERVO_PWM_MIN SERVO_PWM_MAX
  have hlo : (0 : ℚ) ≤ (Clamp_Angle angle mn mx - mn) * (96 - 24) / (mx - mn) :=
    div_nonneg (mul_nonneg (by linarith) (by norm_num)) (le_of_lt hd)
  have hhi : (Clamp_Angle angle mn mx - mn) * (96 - 24) / (mx - mn) ≤ 72 := by
    rw [div_le_iff₀ hd]
    nlinarith
  constructor
  · apply Int.le_floor.mpr
    push_cast
    linarith
  · have hfl : Angle_To_PWM angle mn mx < 97 := by
      unfold Angle_To_PWM SERVO_PWM_MIN SERVO_PWM_MAX
      apply Int.floor_lt.mpr
      push_cast
      linarith
    unfold Angle_To_PWM SERVO_PWM_MIN SERVO_PWM_MAX at hfl
    omega

/-- Servo_Limitation computes the mathematical clamp of both duty targets
into [24, 96]. -/
lemma Servo_Limitation_eq (s : ServoState) :
    Servo_Limitation s =
      { s with Servo_Target1 := max 24 (min s.Servo_Target1 96),
               Servo_Target2 := max 24 (min s.Servo_Target2 96) } := by
  unfold Servo_Limitation
  simp only [ServoState.mk.injEq]
  refine ⟨?_, ?_, trivial⟩ <;> rw [max_def, min_def] <;> split_ifs <;> omega

/-- Closed form of Set_Servo_Angle on axis 1. -/
lemma Set_Servo_Angle_one (s : ServoState) (angle : ℚ) :
    Set_Servo_Angle s 1 angle =
      { Servo_Target1 :=
          max 24 (min (Angle_To_PWM angle SERVO1_MIN_ANGLE SERVO1_MAX_ANGLE) 96),
        Servo_Target2 := max 24 (min s.Servo_Target2 96),
        timerWrites :=
          s.timerWrites ++ [(Angle_To_PWM angle SERVO1_MIN_ANGLE SERVO1_MAX_ANGLE, 0)] } := by
  unfold Set_Servo_Angle
  rw [if_pos rfl, Servo_Limitation_eq]

/-- Closed form of Set_Servo_Angle on axis 2. -/
lemma Set_Servo_Angle_two (s : ServoState) (angle : ℚ) :
    Set_Servo_Angle s 2 angle =
      { Servo_Target1 := max 24 (min s.Servo_Target1 96),
        Servo_Target2 :=
          max 24 (min (Angle_To_PWM angle SERVO2_MIN_ANGLE SERVO2_MAX_ANGLE) 96),
        timerWrites :=
          s.timerWrites ++ [(Angle_To_PWM angle SERVO2_MIN_ANGLE SERVO2_MAX_ANGLE, 1)] } := by
  unfold Set_Servo_Angle
  rw [if_neg (by norm_num), if_pos rfl, Servo_Limitation_eq]

/-- The mathematical clamp into [24, 96] lands in [24, 96]. -/
lemma maxmin_mem (v : ℤ) : 24 ≤ max 24 (min v 96) ∧ max 24 (min v 96) ≤ 96 :=
  ⟨le_max_left _ _, max_le (by norm_num) (min_le_right v 96)⟩

/-- C2: for every commanded angle and each axis servo_num in {1, 2}, the
duty written to the PWM peripheral by Set_Servo_Angle lies in
[SERVO_PWM_MIN, SERVO_PWM_MAX] = [24, 96], and after the call the safety
clamp Servo_Limitation has forced both stored duty targets Servo_Target1
and Servo_Target2 into [24, 96]; the duty written on the selected axis
equals the clamped stored target. -/
theorem servo_duty_safe (s : ServoState) (n : ℕ) (angle : ℚ) (hn : n = 1 ∨ n = 2) :
    (∃ d i, (Set_Servo_Angle s n angle).timerWrites = s.timerWrites ++ [(d, i)] ∧
       24 ≤ d ∧ d ≤ 96 ∧
       d = (if n = 1 then (Set_Servo_Angle s n angle).Servo_Target1
            else (Set_Servo_Angle s n angle).Servo_Target2)) ∧
    (24 ≤ (Set_Servo_Angle s n angle).Servo_Target1 ∧
      (Set_Servo_Angle s n angle).Servo_Target1 ≤ 96) ∧
    (24 ≤ (Set_Servo_Angle s n angle).Servo_Target2 ∧
      (Set_Servo_Angle s n angle).Servo_Target2 ≤ 96) := by
  rcases hn with rfl | rfl
  · obtain ⟨hp1, hp2⟩ := Angle_To_PWM_mem angle SERVO1_MIN_ANGLE SERVO1_MAX_ANGLE
      (by norm_num [SERVO1_MIN_ANGLE, SERVO1_MAX_ANGLE])
    have hid : max 24 (min (Angle_To_PWM angle SERVO1_MIN_ANGLE SERVO1_MAX_ANGLE) 96) =
        Angle_To_PWM angle SERVO1_MIN_ANGLE SERVO1_MAX_ANGLE := by
      rw [min_eq_left hp2, max_eq_right hp1]
    rw [Set_Servo_Angle_one]
    refine ⟨⟨Angle_To_PWM angle SERVO1_MIN_ANGLE SERVO1_MAX_ANGLE, 0, rfl, hp1, hp2, ?_⟩,
      maxmin_mem _, maxmin_mem _⟩
    rw [if_pos rfl]
    exact hid.symm
  · obtain ⟨hp1, hp2⟩ := Angle_To_PWM_mem angle SERVO2_MIN_ANGLE SERVO2_MAX_ANGLE
      (by norm_num [SERVO2_MIN_ANGLE, SERVO2_MAX_ANGLE])
    have hid : max 24 (min (Angle_To_PWM angle SERVO2_MIN_ANGLE SERVO2_MAX_ANGLE) 96) =
        Angle_To_PWM angle SERVO2_MIN_ANGLE SERVO2_MAX_ANGLE := by
      rw [min_eq_left hp2, max_eq_right hp1]
    rw [Set_Servo_Angle_two]
    refine ⟨⟨Angle_To_PWM angle SERVO2_MIN_ANGLE SERVO2_MAX_ANGLE, 1, rfl, hp1, hp2, ?_⟩,
      maxmin_mem _, maxmin_mem _⟩
    rw [if_neg (by norm_num)]
    exact hid.symm

/-- Witness for servo_duty_safe: axis 1 with the far out-of-range command
angle 1000 on a zeroed servo state. -/
theorem servo_duty_safe_witness :
    ((1 : ℕ) = 1 ∨ (1 : ℕ) = 2) ∧
    ((∃ d i, (Set_Servo_Angle (ServoState.mk 0 0 []) 1 1000).timerWrites =
        (ServoState.mk 0 0 []).timerWrites ++ [(d, i)] ∧ 24 ≤ d ∧ d ≤ 96 ∧
        d = (if (1 : ℕ) = 1 then (Set_Servo_Angle (ServoState.mk 0 0 []) 1 1000).Servo_Target1
             else (Set_Servo_Angle (ServoState.mk 0 0 []) 1 1000).Servo_Target2)) ∧
     (24 ≤ (Set_Servo_Angle (ServoState.mk 0 0 []) 1 1000).Servo_Target1 ∧
       (Set_Servo_Angle (ServoState.mk 0 0 []) 1 1000).Servo_Target1 ≤ 96) ∧
     (24 ≤ (Set_Servo_Angle (ServoState.mk 0 0 []) 1 1000).Servo_Target2 ∧
       (Set_Servo_Angle (ServoState.mk 0 0 []) 1 1000).Servo_Target2 ≤ 96)) :=
  ⟨Or.inl rfl, servo_duty_safe (ServoState.mk 0 0 []) 1 1000 (Or.inl rfl)⟩

/-- C6: with a proper calibration (min_angle < max_angle) the angle-to-duty
mapper clamps first and then applies the rounded affine map: feeding
min_angle yields duty 24, feeding max_angle yields duty 96, the result only
depends on the clamped angle, and angles below min_angle (above max_angle)
map like min_angle (max_angle). -/
theorem angle_mapper_spec (mn mx : ℚ) (h : mn < mx) :
    Angle_To_PWM mn mn mx = 24 ∧
    Angle_To_PWM mx mn mx = 96 ∧
    (∀ a : ℚ, Angle_To_PWM a mn mx = Angle_To_PWM (Clamp_Angle a mn mx) mn mx) ∧
    (∀ a : ℚ, a < mn → Angle_To_PWM a mn mx = Angle_To_PWM mn mn mx) ∧
    (∀ a : ℚ, mx < a → Angle_To_PWM a mn mx = Angle_To_PWM mx mn mx) := by
  have hcmin : Clamp_Angle mn mn mx = mn := by
    unfold Clamp_Angle
    rw [if_neg (lt_irrefl mn), if_neg (not_lt.mpr (le_of_lt h))]
  have hcmax : Clamp_Angle mx mn mx = mx := by
    unfold Clamp_Angle
    rw [if_neg (not_lt.mpr (le_of_lt h)), if_neg (lt_irrefl mx)]
  refine ⟨?_, ?_, ?_, ?_, ?_⟩
  · simp only [Angle_To_PWM, hcmin, SERVO_PWM_MIN, SERVO_PWM_MAX]
    rw [sub_self, zero_mul, zero_div, add_zero, Int.floor_eq_iff]
    norm_num
  · simp only [Angle_To_PWM, hcmax, SERVO_PWM_MIN, SERVO_PWM_MAX]
    have hne : mx - mn ≠ 0 := ne_of_gt (by linarith)
    rw [mul_comm (mx - mn) ((96 : ℚ) - 24), mul_div_assoc, div_self hne, mul_one,
      Int.floor_eq_iff]
    norm_num
  · intro a
    exact Angle_To_PWM_congr _ _ _ _ (Clamp_Angle_idem a mn mx (le_of_lt h)).symm
  · intro a ha
    apply Angle_To_PWM_congr
    rw [hcmin]
    unfold Clamp_Angle
    rw [if_pos ha]
  · intro a ha
    apply Angle_To_PWM_congr
    rw [hcmax]
    unfold Clamp_Angle
    rw [if_neg (not_lt.mpr (by linarith)), if_pos ha]

/-- Witness for angle_mapper_spec at the concrete calibration [0, 1]. -/
theorem angle_mapper_spec_witness :
    (0 : ℚ) < 1 ∧
    (Angle_To_PWM 0 0 1 = 24 ∧ Angle_To_PWM 1 0 1 = 96 ∧
     (∀ a : ℚ, Angle_To_PWM a 0 1 = Angle_To_PWM (Clamp_Angle a 0 1) 0 1) ∧
     (∀ a : ℚ, a < 0 → Angle_To_PWM a 0 1 = Angle_To_PWM 0 0 1) ∧
     (∀ a : ℚ, 1 < a → Angle_To_PWM a 0 1 = Angle_To_PWM 1 0 1)) :=
  ⟨by norm_num, angle_mapper_spec 0 1 (by norm_num)⟩

/-! Section: frame synchronizer theorems -/

/-- processList on an empty stream is the identity. -/
lemma processList_nil (s : RxState) : processList s [] = s := rfl

/-- processList consumes the stream head first. -/
lemma processList_cons (s : RxState) (b : ℕ) (bs : List ℕ) :
    processList s (b :: bs) = processList (UART_0_rx_DataFrame s b) bs := rfl

/-- The resynchronization branch: two consecutive 0xAA. -/
lemma step_sync (s : RxState) (b : ℕ) (h : s.lastData = b ∧ b = 0xAA) :
    UART_0_rx_DataFrame s b =
      { s with pt := 2,
               rxOrder := Function.update (Function.update s.rxOrder 0 0xAA) 1 0xAA,
               lastData := b } := by
  unfold UART_0_rx_DataFrame
  rw [if_pos h]

/-- The terminator branch with a passing checksum: commit the coordinate. -/
lemma step_commit (s : RxState) (hl : s.lastData = 0xFF)
    (hc : s.rxOrder 2 + s.rxOrder 3 + s.rxOrder 4 + s.rxOrder 5 = s.rxOrder 6) :
    UART_0_rx_DataFrame s 0xFF =
      { s with target_x := 256 * s.rxOrder 2 + s.rxOrder 3,
               target_y := 256 * s.rxOrder 4 + s.rxOrder 5,
               commitCount := s.commitCount + 1,
               lastData := 0xFF } := by
  unfold UART_0_rx_DataFrame
  rw [if_neg (fun hh => absurd hh.2 (by decide)), if_pos ⟨hl, rfl⟩, if_pos hc]

/-- The terminator branch with a failing checksum: nothing but `last_data`
changes. -/
lemma step_drop (s : RxState) (hl : s.lastData = 0xFF)
    (hc : ¬ s.rxOrder 2 + s.rxOrder 3 + s.rxOrder 4 + s.rxOrder 5 = s.rxOrder 6) :
    UART_0_rx_DataFrame s 0xFF = { s with lastData := 0xFF } := by
  unfold UART_0_rx_DataFrame
  rw [if_neg (fun hh => absurd hh.2 (by decide)), if_pos ⟨hl, rfl⟩, if_neg hc]

/-- The accumulate branch: store the byte at the cursor and advance it. -/
lemma step_store (s : RxState) (b : ℕ)
    (h1 : ¬(s.lastData = b ∧ b = 0xAA)) (h2 : ¬(s.lastData = b ∧ b = 0xFF)) :
    UART_0_rx_DataFrame s b =
      { s with rxOrder := Function.update s.rxOrder s.pt b,
               pt := (s.pt + 1) % 9, lastData := b } := by
  unfold UART_0_rx_DataFrame
  rw [if_neg h1, if_neg h2]

/-- One step keeps the cursor below 9. -/
lemma step_pt_lt (s : RxState) (b : ℕ) (h : s.pt < 9) :
    (UART_0_rx_DataFrame s b).pt < 9 := by
  unfold UART_0_rx_DataFrame
  split_ifs
  · show (2 : ℕ) < 9
    decide
  · exact h
  · exact h
  · exact Nat.mod_lt _ (by norm_num)

/-- The cursor invariant is preserved along any byte sequence. -/
lemma processList_pt_lt (bs : List ℕ) : ∀ s : RxState, s.pt < 9 →
    (processList s bs).pt < 9 := by
  induction bs with
  | nil => intro s h; exact h
  | cons b bs ih =>
    intro s h
    rw [processList_cons]
    exact ih _ (step_pt_lt s b h)

/-- C9: starting from the initial state, after processing any byte sequence
the write index pt stays strictly below 9, so every buffer store
`rx_order[pt] = b` lands inside the 9-byte frame buffer (the increment
wraps modulo 9 instead of growing). -/
theorem frame_pt_invariant (bs : List ℕ) : (processList initState bs).pt < 9 :=
  processList_pt_lt bs initState (by decide)

/-- C10: in the initial state (zeroed frame buffer, nothing received), two
consecutive 0xFF bytes make the checksum test pass on the all-zero buffer
and commit the coordinate (0, 0). -/
theorem initial_terminator_commits_zero :
    (processList initState [0xFF, 0xFF]).target_x = 0 ∧
    (processList initState [0xFF, 0xFF]).target_y = 0 ∧
    (processList initState [0xFF, 0xFF]).commitCount = 1 := by
  refine ⟨rfl, rfl, rfl⟩

/-- C4: when the terminator fires (a 0xFF arriving after a 0xFF) on a frame
buffer whose checksum byte (a byte value) differs mod 256 from the checksum
of the four coordinate bytes, the handler changes nothing except
`last_data`: no commit, targets retained, and no error is signaled (the
state is otherwise identical). -/
theorem checksum_mismatch_drops (s : RxState)
    (hl : s.lastData = 0xFF) (hb : s.rxOrder 6 < 256)
    (hc : (s.rxOrder 2 + s.rxOrder 3 + s.rxOrder 4 + s.rxOrder 5) % 256 ≠ s.rxOrder 6 % 256) :
    UART_0_rx_DataFrame s 0xFF = { s with lastData := 0xFF } := by
  apply step_drop s hl
  intro he
  apply hc
  rw [he]

/-- Witness for checksum_mismatch_drops: a state holding checksum byte 5
over an all-zero coordinate area, one 0xFF already seen. -/
theorem checksum_mismatch_drops_witness :
    ((RxState.mk (fun i => if i = 6 then 5 else 0) 0xFF 7 3 4 0).lastData = 0xFF ∧
     (RxState.mk (fun i => if i = 6 then 5 else 0) 0xFF 7 3 4 0).rxOrder 6 < 256 ∧
     ((RxState.mk (fun i => if i = 6 then 5 else 0) 0xFF 7 3 4 0).rxOrder 2 +
        (RxState.mk (fun i => if i = 6 then 5 else 0) 0xFF 7 3 4 0).rxOrder 3 +
        (RxState.mk (fun i => if i = 6 then 5 else 0) 0xFF 7 3 4 0).rxOrder 4 +
        (RxState.mk (fun i => if i = 6 then 5 else 0) 0xFF 7 3 4 0).rxOrder 5) % 256 ≠
       (RxState.mk (fun i => if i = 6 then 5 else 0) 0xFF 7 3 4 0).rxOrder 6 % 256) ∧
    UART_0_rx_DataFrame (RxState.mk (fun i => if i = 6 then 5 else 0) 0xFF 7 3 4 0) 0xFF =
      { RxState.mk (fun i => if i = 6 then 5 else 0) 0xFF 7 3 4 0 with lastData := 0xFF } :=
  ⟨⟨rfl, by norm_num, by norm_num⟩,
   checksum_mismatch_drops _ rfl (by norm_num) (by norm_num)⟩

/-- After a resynchronization (last byte 0xAA, cursor at 2), a payload
[xh, xl, yh, yl, chk] followed by the duplicated 0xFF terminator commits
the coordinate (xh<<8|xl, yh<<8|yl), provided the plain byte sum equals the
checksum byte and fits in one byte, xh is not the sync byte, and the
(yl, chk) pair is not a duplicated terminator or sync pair. -/
lemma frame_commit_from_sync (s : RxState) (xh xl yh yl chk : ℕ)
    (hlast : s.lastData = 0xAA) (hpt : s.pt = 2)
    (hsum : xh + xl + yh + yl ≤ 255)
    (hchk : chk = xh + xl + yh + yl)
    (hxh : xh ≠ 0xAA)
    (hylchkFF : ¬(yl = 0xFF ∧ chk = 0xFF))
    (hylchkAA : ¬(yl = 0xAA ∧ chk = 0xAA)) :
    (processList s [xh, xl, yh, yl, chk, 0xFF, 0xFF]).target_x = 256 * xh + xl ∧
    (processList s [xh, xl, yh, yl, chk, 0xFF, 0xFF]).target_y = 256 * yh + yl ∧
    s.commitCount < (processList s [xh, xl, yh, yl, chk, 0xFF, 0xFF]).commitCount := by
  rw [processList_cons,
    step_store _ xh (by intro hh; exact hxh hh.2)
      (by intro hh; have h1 := hh.1; rw [hlast] at h1; have h2 := hh.2; omega),
    hpt]
  rw [processList_cons,
    step_store _ xl
      (by intro hh
          have h1 : xh = xl := hh.1
          have h2 : xl = 0xAA := hh.2
          exact hxh (h1.trans h2))
      (by intro hh
          have h1 : xh = xl := hh.1
          have h2 : xl = 0xFF := hh.2
          omega)]
  rw [processList_cons,
    step_store _ yh
      (by intro hh
          have h1 : xl = yh := hh.1
          have h2 : yh = 0xAA := hh.2
          omega)
      (by intro hh
          have h1 : xl = yh := hh.1
          have h2 : yh = 0xFF := hh.2
          omega)]
  rw [processList_cons,
    step_store _ yl
      (by intro hh
          have h1 : yh = yl := hh.1
          have h2 : yl = 0xAA := hh.2
          omega)
      (by intro hh
          have h1 : yh = yl := hh.1
          have h2 : yl = 0xFF := hh.2
          omega)]
  rw [processList_cons,
    step_store _ chk
      (by intro hh
          have h1 : yl = chk := hh.1
          have h2 : chk = 0xAA := hh.2
          exact hylchkAA ⟨h1.trans h2, h2⟩)
      (by intro hh
          have h1 : yl = chk := hh.1
          have h2 : chk = 0xFF := hh.2
          exact hylchkFF ⟨h1.trans h2, h2⟩)]
  rcases eq_or_ne chk 0xFF with hc | hc
  · rw [processList_cons, step_commit _ hc hchk.symm]
    rw [processList_cons, step_commit _ rfl hchk.symm]
    rw [processList_nil]
    refine ⟨rfl, rfl, ?_⟩
    show s.commitCount < s.commitCount + 1 + 1
    omega
  · rw [processList_cons,
      step_store _ 0xFF
        (by intro hh; exact absurd hh.2 (by decide))
        (by intro hh; have h1 : chk = 0xFF := hh.1; exact hc h1)]
    rw [processList_cons, step_commit _ rfl hchk.symm]
    rw [processList_nil]
    refine ⟨rfl, rfl, ?_⟩
    show s.commitCount < s.commitCount + 1
    omega

/-- C1 (amended): a stream of two consecutive 0xAA, then the five bytes
[xh, xl, yh, yl, chk] with chk = (xh+xl+yh+yl) mod 256, then two
consecutive 0xFF, commits (target_x, target_y) = (xh<<8|xl, yh<<8|yl) from
any prior synchronizer state, provided the coordinate bytes sum to at most
255 (the code compares the un-reduced sum against the checksum byte),
xh is not the sync byte 0xAA, and the adjacent pair (yl, chk) is not a
duplicated 0xFF or duplicated 0xAA pair (which would fire the terminator
or sync detector early). -/
theorem frame_valid_commit (s : RxState) (xh xl yh yl chk : ℕ)
    (hchk : chk = (xh + xl + yh + yl) % 256)
    (hsum : xh + xl + yh + yl ≤ 255)
    (hxh : xh ≠ 0xAA)
    (hylchkFF : ¬(yl = 0xFF ∧ chk = 0xFF))
    (hylchkAA : ¬(yl = 0xAA ∧ chk = 0xAA)) :
    (processList s [0xAA, 0xAA, xh, xl, yh, yl, chk, 0xFF, 0xFF]).target_x = 256 * xh + xl ∧
    (processList s [0xAA, 0xAA, xh, xl, yh, yl, chk, 0xFF, 0xFF]).target_y = 256 * yh + yl ∧
    s.commitCount < (processList s [0xAA, 0xAA, xh, xl, yh, yl, chk, 0xFF, 0xFF]).commitCount := by
  have hchk' : chk = xh + xl + yh + yl := by
    rw [hchk]
    exact Nat.mod_eq_of_lt (by omega)
  by_cases hA : s.lastData = 0xAA
  · rw [processList_cons, step_sync _ _ ⟨hA, rfl⟩]
    rw [processList_cons, step_sync _ _ ⟨rfl, rfl⟩]
    exact frame_commit_from_sync _ xh xl yh yl chk rfl rfl hsum hchk' hxh hylchkFF hylchkAA
  · rw [processList_cons,
      step_store _ 0xAA (fun hh => hA hh.1) (fun hh => absurd hh.2 (by decide))]
    rw [processList_cons, step_sync _ _ ⟨rfl, rfl⟩]
    exact frame_commit_from_sync _ xh xl yh yl chk rfl rfl hsum hchk' hxh hylchkFF hylchkAA

/-- Witness for frame_valid_commit: the frame AA AA 00 64 00 50 B4 FF FF
(x = 100, y = 80, checksum 180) commits (100, 80) from the initial state. -/
theorem frame_valid_commit_witness :
    ((180 : ℕ) = (0 + 100 + 0 + 80) % 256 ∧ (0 : ℕ) + 100 + 0 + 80 ≤ 255 ∧
     (0 : ℕ) ≠ 0xAA ∧ ¬((80 : ℕ) = 0xFF ∧ (180 : ℕ) = 0xFF) ∧
     ¬((80 : ℕ) = 0xAA ∧ (180 : ℕ) = 0xAA)) ∧
    ((processList initState [0xAA, 0xAA, 0, 100, 0, 80, 180, 0xFF, 0xFF]).target_x =
        256 * 0 + 100 ∧
     (processList initState [0xAA, 0xAA, 0, 100, 0, 80, 180, 0xFF, 0xFF]).target_y =
        256 * 0 + 80 ∧
     initState.commitCount <
       (processList initState [0xAA, 0xAA, 0, 100, 0, 80, 180, 0xFF, 0xFF]).commitCount) :=
  ⟨⟨by norm_num, by norm_num, by norm_num, by norm_num, by norm_num⟩,
   frame_valid_commit initState 0 100 0 80 180 (by norm_num) (by norm_num) (by norm_num)
     (by norm_num) (by norm_num)⟩

/-- Counterexample to C1 as stated: the frame AA AA 01 FF 00 00 00 FF FF
has coordinate bytes summing to 256 and mod-256 checksum byte 0x00, so the
claim demands a commit of x = 0x01FF = 511; the code compares the plain sum
256 with the byte 0, drops the frame, and commits nothing. -/
theorem frame_mod256_checksum_counterexample :
    ((0x01 + 0xFF + 0x00 + 0x00) % 256 = 0x00) ∧
    (processList initState [0xAA, 0xAA, 0x01, 0xFF, 0x00, 0x00, 0x00, 0xFF, 0xFF]).commitCount
      = 0 ∧
    (processList initState [0xAA, 0xAA, 0x01, 0xFF, 0x00, 0x00, 0x00, 0xFF, 0xFF]).target_x
      ≠ 256 * 0x01 + 0xFF := by
  refine ⟨by norm_num, rfl, by decide⟩

/-! Section: initialization handshake theorems -/

/-- If the acknowledgment appears within the remaining fuel, the retry loop
returns 1. -/
lemma K230_Init_loop_found (stream : ℕ → ℕ) : ∀ (fuel i : ℕ),
    (∃ k, k < fuel ∧ stream (i + k) = 0x1B) → K230_Init_loop stream i fuel = 1 := by
  intro fuel
  induction fuel with
  | zero =>
    intro i ⟨k, hk, _⟩
    omega
  | succ f ih =>
    intro i ⟨k, hk, hs⟩
    by_cases h : stream i = 0x1B
    · simp only [K230_Init_loop, if_pos h]
    · simp only [K230_Init_loop, if_neg h]
      apply ih
      cases k with
      | zero => exact absurd hs h
      | succ k =>
        refine ⟨k, by omega, ?_⟩
        rw [show i + 1 + k = i + (k + 1) by omega]
        exact hs
/-- If no acknowledgment appears within the remaining fuel, the retry loop
returns 0. -/
lemma K230_Init_loop_timeout (stream : ℕ → ℕ) : ∀ (fuel i : ℕ),
    (∀ k, k < fuel → stream (i + k) ≠ 0x1B) → K230_Init_loop stream i fuel = 0 := by
  intro fuel
  induction fuel with
  | zero => intro i _; rfl
  | succ f ih =>
    intro i hk
    have h0 : stream i ≠ 0x1B := by
      have := hk 0 (by omega)
      simpa using this
    simp only [K230_Init_loop, if_neg h0]
    apply ih
    intro k hkf
    have := hk (k + 1) (by omega)
    rw [show i + (k + 1) = i + 1 + k by omega] at this
    exact this

/-- C7: K230_Init returns 1 (success) when the acknowledgment byte 0x1B
arrives among the bytes it is allowed to read, and returns 0
(initialization failure) when the first TIME_OUT = 255 received bytes are
all non-acknowledgments; it never retries beyond that bound. -/
theorem k230_init_bounded (stream : ℕ → ℕ) :
    ((∃ k, k < TIME_OUT ∧ stream k = 0x1B) → K230_Init stream = 1) ∧
    ((∀ k, k < TIME_OUT → stream k ≠ 0x1B) → K230_Init stream = 0) := by
  constructor
  · intro ⟨k, hk, hs⟩
    apply K230_Init_loop_found stream TIME_OUT 0
    exact ⟨k, hk, by simpa using hs⟩
  · intro hno
    apply K230_Init_loop_timeout stream TIME_OUT 0
    intro k hk
    simpa using hno k hk

/-- Witness for k230_init_bounded: the ack as fourth byte yields 1; an
all-zero stream yields 0. -/
theorem k230_init_bounded_witness :
    (∃ k, k < TIME_OUT ∧ ackStream k = 0x1B) ∧ K230_Init ackStream = 1 ∧
    (∀ k, k < TIME_OUT → silentStream k ≠ 0x1B) ∧ K230_Init silentStream = 0 :=
  ⟨⟨3, by norm_num [TIME_OUT], by norm_num [ackStream]⟩,
   (k230_init_bounded ackStream).1 ⟨3, by norm_num [TIME_OUT], by norm_num [ackStream]⟩,
   fun k _ => by norm_num [silentStream],
   (k230_init_bounded silentStream).2 (fun k _ => by norm_num [silentStream])⟩

/-! Section: command/response exchange theorems -/

/-- The terminator scan hands back a suffix of the remaining stream. -/
lemma segLoop_some_length : ∀ (s : List ℕ) (ll l t : ℕ) (acc buf rest : List ℕ),
    segLoop ll l t acc s = some (buf, rest) → rest.length ≤ s.length := by
  intro s
  induction s with
  | nil =>
    intro ll l t acc buf rest hseg
    rw [segLoop] at hseg
    by_cases hterm : t = END3 ∧ l = END2 ∧ ll = END1
    · rw [if_pos hterm] at hseg
      simp only [Option.some.injEq, Prod.mk.injEq] at hseg
      obtain ⟨h1, h2⟩ := hseg
      rw [← h2]
    · rw [if_neg hterm] at hseg
      simp at hseg
  | cons x xs ih =>
    intro ll l t acc buf rest hseg
    rw [segLoop] at hseg
    by_cases hterm : t = END3 ∧ l = END2 ∧ ll = END1
    · rw [if_pos hterm] at hseg
      simp only [Option.some.injEq, Prod.mk.injEq] at hseg
      obtain ⟨h1, h2⟩ := hseg
      rw [← h2]
    · rw [if_neg hterm] at hseg
      have := ih l t x (acc ++ [t]) buf rest hseg
      simp only [List.length_cons]
      omega

/-- A completed segment consumes at least the discarded byte and the first
payload read: the unread remainder is strictly shorter than the stream. -/
lemma parseSegment_length {s buf rest : List ℕ}
    (hp : parseSegment s = some (buf, rest)) : rest.length < s.length := by
  match s with
  | [] => simp [parseSegment] at hp
  | [_] => simp [parseSegment] at hp
  | a :: t :: s2 =>
    have := segLoop_some_length s2 0 0 t [] buf rest (by simpa [parseSegment] using hp)
    simp only [List.length_cons]
    omega

/-- The outer loop of K230_cmd does not depend on the exact fuel value as
long as the fuel covers the stream length. -/
lemma cmdRun_fuel_congr (h : List ℕ → ℕ) : ∀ (f1 f2 : ℕ) (s : List ℕ),
    s.length ≤ f1 → s.length ≤ f2 → cmdRun h f1 s = cmdRun h f2 s := by
  intro f1
  induction f1 with
  | zero =>
    intro f2 s h1 _
    have hs : s = [] := List.eq_nil_of_length_eq_zero (Nat.le_zero.mp h1)
    subst hs
    cases f2 with
    | zero => rfl
    | succ f2 => simp [cmdRun, parseSegment]
  | succ f1 ih =>
    intro f2 s h1 h2
    cases f2 with
    | zero =>
      have hs : s = [] := List.eq_nil_of_length_eq_zero (Nat.le_zero.mp h2)
      subst hs
      simp [cmdRun, parseSegment]
    | succ f2 =>
      simp only [cmdRun]
      cases hp : parseSegment s with
      | none => rfl
      | some pr =>
        obtain ⟨buf, rest⟩ := pr
        dsimp only
        have hlt := parseSegment_length hp
        by_cases hz : h buf = 0
        · rw [if_pos hz, if_pos hz]
        · rw [if_neg hz, if_neg hz, ih f2 rest (by omega) (by omega)]

/-- C8: K230_cmd reads response segments delimited by the sliding-window
terminator END1 END2 END3 = 0x01 0xFE 0xFF (parseSegment), invokes the
handler once per completed segment, loops for another segment exactly when
the handler returns nonzero, and on the first zero return stops and
transmits the stop command byte STOP_CMD = 0x1C after the initial command
byte. -/
theorem k230_cmd_protocol (cmd : ℕ) (h : List ℕ → ℕ) (s buf rest : List ℕ)
    (hp : parseSegment s = some (buf, rest)) :
    (h buf = 0 → K230_cmd cmd h s = some ([buf], [cmd, STOP_CMD])) ∧
    (h buf ≠ 0 → K230_cmd cmd h s =
      (K230_cmd cmd h rest).map (fun p => (buf :: p.1, p.2))) := by
  have hpos : 0 < s.length := by
    cases s with
    | nil => simp [parseSegment] at hp
    | cons a t => simp
  obtain ⟨n, hn⟩ : ∃ n, s.length = n + 1 := ⟨s.length - 1, by omega⟩
  have hrest : rest.length ≤ n := by
    have := parseSegment_length hp
    omega
  constructor
  · intro hz
    unfold K230_cmd
    rw [hn]
    simp only [cmdRun]
    rw [hp]
    dsimp only
    rw [if_pos hz]
    rfl
  · intro hz
    unfold K230_cmd
    rw [hn]
    simp only [cmdRun]
    rw [hp]
    dsimp only
    rw [if_neg hz, cmdRun_fuel_congr h n rest.length rest hrest (le_refl _)]
    cases cmdRun h rest.length rest <;> rfl

/-- Witness for k230_cmd_protocol: stream 09 05 01 FE FF 07 — the discarded
byte 09, payload 05 (the terminator prefix 01 FE is also stored, END3 is
not), a handler that immediately returns 0, command byte 0x30. -/
theorem k230_cmd_protocol_witness :
    parseSegment [9, 5, 1, 0xFE, 0xFF, 7] = some ([5, 1, 0xFE], [7]) ∧
    (fun _ : List ℕ => 0) [5, 1, 0xFE] = 0 ∧
    K230_cmd 0x30 (fun _ : List ℕ => 0) [9, 5, 1, 0xFE, 0xFF, 7] =
      some ([[5, 1, 0xFE]], [0x30, STOP_CMD]) := by
  have hseg : parseSegment [9, 5, 1, 0xFE, 0xFF, 7] = some ([5, 1, 0xFE], [7]) := by
    simp [parseSegment, segLoop, END1, END2, END3]
  exact ⟨hseg, rfl, (k230_cmd_protocol 0x30 (fun _ => 0) _ _ _ hseg).1 rfl⟩
